import Mathlib

/-!
Shallow embedding of the inventory reconciliation pipeline of
`src/data-schema.js` (secure-bin-cycle-count): row validation,
deduplication, variance statistics, session metrics and duration
formatting, together with proofs of the specification claims.

Modelling conventions.
JavaScript cell values (string | number | empty) are modelled by `JsValue`;
numeric cells are modelled as integers (all quantities in the schema are
integer counts, and `toString` of an integral JS number is its decimal
notation). JS truthiness on these carriers is `truthy`. `parseInt` is
modelled on strings faithfully (leading whitespace, sign, `0x` prefix,
longest digit prefix, `NaN` as `none`). JS numbers produced by the
percentage pipeline are IEEE-754 binary64 doubles: a finite double is
carried as its exact value `m * 2 ^ e` (`JsFloat.fin m e`), the quotient
`a / b` and the product `* 100` are each correctly rounded to 53
significand bits (round to nearest, ties to even), and `NaN` / the
infinities are the extra points produced by division by zero. The model
is exact throughout the binary64 normal range, which covers every value
reachable from JS array lengths (below `2 ^ 32`); overflow, subnormals
and the larger JS whitespace class of `parseInt` are outside what this
program can produce. `toFixed(2)` follows ECMA-262: the count of
hundredths nearest to the exact double value, ties to the larger.
`Date.now()` is an explicit `now` argument of `calculateSessionMetrics`.
-/

/-- A raw JavaScript cell value: absent/undefined, a string, or an
(integral) number. -/
inductive JsValue where
  | undefined : JsValue
  | str : String → JsValue
  | num : Int → JsValue
deriving DecidableEq

/-- JS truthiness of a cell value: `undefined`, `""` and `0` are falsy. -/
def truthy : JsValue → Bool
  | JsValue.undefined => false
  | JsValue.str s => !(s == "")
  | JsValue.num n => !(n == 0)

/-- JS `String(v)` on the modelled values. -/
def jsToString : JsValue → String
  | JsValue.undefined => "undefined"
  | JsValue.str s => s
  | JsValue.num n => toString n

/-- Numeric value of a decimal digit list (most significant first). -/
def digitsVal (base : Nat) (digVal : Char → Nat) (cs : List Char) : Nat :=
  cs.foldl (fun acc c => acc * base + digVal c) 0

/-- Value of a hexadecimal digit character. -/
def hexDigitVal (c : Char) : Nat :=
  if c.isDigit then c.toNat - '0'.toNat
  else if 'a' ≤ c && c ≤ 'f' then c.toNat - 'a'.toNat + 10
  else c.toNat - 'A'.toNat + 10

/-- Is `c` a hexadecimal digit? -/
def isHexDigit (c : Char) : Bool :=
  c.isDigit || ('a' ≤ c && c ≤ 'f') || ('A' ≤ c && c ≤ 'F')

/-- Parse the longest prefix of decimal digits; `none` when there is no
digit, as `parseInt` then yields `NaN`. -/
def parseDecDigits (cs : List Char) : Option Nat :=
  let ds := cs.takeWhile Char.isDigit
  if ds.isEmpty then none else some (digitsVal 10 (fun c => c.toNat - '0'.toNat) ds)

/-- Parse the longest prefix of hexadecimal digits; `none` when there is
no digit. -/
def parseHexDigits (cs : List Char) : Option Nat :=
  let ds := cs.takeWhile isHexDigit
  if ds.isEmpty then none else some (digitsVal 16 hexDigitVal ds)

/-- Magnitude part of JS `parseInt` after the optional sign: a `0x`/`0X`
prefix selects hexadecimal, otherwise the longest decimal digit prefix. -/
def parseIntMagnitude (cs : List Char) : Option Nat :=
  match cs with
  | '0' :: 'x' :: rest => parseHexDigits rest
  | '0' :: 'X' :: rest => parseHexDigits rest
  | _ => parseDecDigits cs

/-- JS `parseInt` on a string (`none` models `NaN`): skip leading
whitespace (the ASCII class; JS StrWhiteSpace adds only exotic code
points such as NBSP), optional sign, then the longest valid digit
prefix. -/
def parseIntStr (s : String) : Option Int :=
  let cs := s.data.dropWhile Char.isWhitespace
  match cs with
  | '-' :: rest => (parseIntMagnitude rest).map (fun n => -(n : Int))
  | '+' :: rest => (parseIntMagnitude rest).map (fun n => (n : Int))
  | _ => (parseIntMagnitude cs).map (fun n => (n : Int))

/-- JS `parseInt(v)` on a cell value: the argument is first converted
with `String(v)`; for an integral number that round-trips to the number
itself. -/
def parseIntJs : JsValue → Option Int
  | JsValue.undefined => none
  | JsValue.str s => parseIntStr s
  | JsValue.num n => some n

/-- The regex `^\d{4}-\d{2}-\d{2}$` of the source: exactly ten
characters, digits and hyphens in the displayed pattern. -/
def matchesDatePattern (s : String) : Bool :=
  match s.data with
  | [y1, y2, y3, y4, h1, m1, m2, h2, d1, d2] =>
      y1.isDigit && y2.isDigit && y3.isDigit && y4.isDigit &&
      h1 == '-' && m1.isDigit && m2.isDigit && h2 == '-' &&
      d1.isDigit && d2.isDigit
  | _ => false

/-- A raw spreadsheet row restricted to the columns the pipeline reads. -/
structure Row where
  Location : JsValue
  Bin : JsValue
  PalletID : JsValue
  ItemNumber : JsValue
  SystemQuantity : JsValue
  ExpiryDate : JsValue
deriving DecidableEq

/-- JS property access `row[col]` for the columns the validator reads. -/
def getCol (row : Row) (c : String) : JsValue :=
  if c = "Location" then row.Location
  else if c = "Bin" then row.Bin
  else if c = "PalletID" then row.PalletID
  else if c = "ItemNumber" then row.ItemNumber
  else if c = "SystemQuantity" then row.SystemQuantity
  else if c = "ExpiryDate" then row.ExpiryDate
  else JsValue.undefined

/-- The `required` array of `validateInventoryRow`. -/
def requiredColumns : List String :=
  ["Location", "Bin", "PalletID", "ItemNumber", "SystemQuantity"]

/-- The missing-column errors collected by the `required.forEach` loop:
one error per required column whose value is falsy. -/
def missingErrors (row : Row) : List String :=
  (requiredColumns.filter (fun c => !(truthy (getCol row c)))).map
    (fun c => "Missing required column: " ++ c)

/-- The `SystemQuantity` type error: reported when the value is truthy
and `parseInt` on it yields `NaN`. -/
def sqErrors (row : Row) : List String :=
  if truthy row.SystemQuantity && (parseIntJs row.SystemQuantity).isNone then
    ["SystemQuantity must be a number, got: " ++ jsToString row.SystemQuantity]
  else []

/-- The `ExpiryDate` format error: reported when the value is truthy and
its string form fails the `YYYY-MM-DD` regex. -/
def expErrors (row : Row) : List String :=
  if truthy row.ExpiryDate && !(matchesDatePattern (jsToString row.ExpiryDate)) then
    ["ExpiryDate must be YYYY-MM-DD format, got: " ++ jsToString row.ExpiryDate]
  else []

/-- Result record of `validateInventoryRow`. -/
structure ValidationResult where
  isValid : Bool
  errors : List String
deriving DecidableEq

/-- `validateInventoryRow` of `src/data-schema.js`: collects missing
required columns, the `SystemQuantity` parse check and the `ExpiryDate`
format check, in source order; `isValid` iff no error. -/
def validateInventoryRow (row : Row) : ValidationResult :=
  let errors := missingErrors row ++ sqErrors row ++ expErrors row
  { isValid := errors.length == 0, errors := errors }

/-- The declarative field validator of `InventoryImportSchema` for
`systemQuantity`: `(val) => Number.isInteger(val) && val >= 0` (on the
integer carrier, `Number.isInteger` holds). -/
def systemQuantityFieldValidation (val : Int) : Bool :=
  decide (0 ≤ val)

/-- A rejected duplicate: the spread copy of the row plus its `reason`. -/
structure RejectedRow where
  row : Row
  reason : String
deriving DecidableEq

/-- Result record of `deduplicateRows`. -/
structure DedupResult where
  unique : List Row
  duplicates : List RejectedRow
  deduplicationCount : Nat
deriving DecidableEq

/-- The template-literal key `` `${row.PalletID}|${row.Bin}` ``. -/
def rowKey (row : Row) : String :=
  jsToString row.PalletID ++ "|" ++ jsToString row.Bin

/-- The `rows.filter` walk of `deduplicateRows` with its `seen` map
(modelled by the list of keys inserted so far) and `duplicates`
accumulator: returns (kept rows, rejected rows). -/
def dedupAux (seen : List String) : List Row → List Row × List RejectedRow
  | [] => ([], [])
  | r :: rest =>
      if rowKey r ∈ seen then
        ((dedupAux seen rest).1,
         { row := r, reason := "Duplicate PalletID+Bin" } :: (dedupAux seen rest).2)
      else
        (r :: (dedupAux (rowKey r :: seen) rest).1,
         (dedupAux (rowKey r :: seen) rest).2)

/-- `deduplicateRows` of `src/data-schema.js`. -/
def deduplicateRows (rows : List Row) : DedupResult :=
  { unique := (dedupAux [] rows).1,
    duplicates := (dedupAux [] rows).2,
    deduplicationCount := (dedupAux [] rows).2.length }

/-- Bit length of a natural number (index of the highest set bit plus
one), with explicit fuel so that it reduces step by step in the kernel.
-/
def natBitLenAux : Nat → Nat → Nat
  | 0, _ => 0
  | fuel + 1, n => if n = 0 then 0 else natBitLenAux fuel (n / 2) + 1

/-- Bit length with fuel 1100: exact for every magnitude within (and
well beyond) the binary64 normal range. -/
def natBitLen (n : Nat) : Nat :=
  natBitLenAux 1100 n

/-- Round a nonnegative integer significand `M` (value `M * 2 ^ e`) to
53 bits, to nearest with ties to even: binary64 rounding of an exact
product. Returns the new significand and exponent. -/
def roundMantissa (M : Nat) (e : Int) : Nat × Int :=
  let L := natBitLen M
  if L ≤ 53 then (M, e)
  else
    let sh := L - 53
    let high := M / 2 ^ sh
    let low := M % 2 ^ sh
    let half := 2 ^ (sh - 1)
    if low > half ∨ (low = half ∧ high % 2 = 1) then (high + 1, e + (sh : Int))
    else (high, e + (sh : Int))

/-- Binary64 rounding (to nearest, ties to even) of the nonnegative
rational `p / q` (`q ≠ 0`): the scaled quotient `p * 2 ^ E / q` keeps 53
bits, the discarded bits and the division remainder supply the round and
sticky information. Returns significand and exponent of the double. -/
def roundPosRat (p q : Nat) : Nat × Int :=
  if p = 0 then (0, 0)
  else
    let E := natBitLen q + 55
    let T := p * 2 ^ E / q
    let r := p * 2 ^ E % q
    let L := natBitLen T
    let sh := L - 53
    let high := T / 2 ^ sh
    let low := T % 2 ^ sh
    let half := 2 ^ (sh - 1)
    if low > half ∨ (low = half ∧ (r ≠ 0 ∨ high % 2 = 1)) then
      (high + 1, (sh : Int) - (E : Int))
    else (high, (sh : Int) - (E : Int))

/-- A JS number as the percentage pipeline produces it: the exact value
`m * 2 ^ e` of a finite binary64 double, or one of the non-finite
points of JS arithmetic. -/
inductive JsFloat where
  | fin : Int → Int → JsFloat
  | inf : JsFloat
  | negInf : JsFloat
  | nan : JsFloat
deriving DecidableEq

/-- JS division `a / b` of two (integral) numbers: division by zero
yields `NaN` for `0 / 0` and a signed infinity otherwise; every other
quotient is correctly rounded to binary64. -/
def jsDivF (a b : Int) : JsFloat :=
  if b = 0 then
    (if a = 0 then JsFloat.nan else if a > 0 then JsFloat.inf else JsFloat.negInf)
  else
    let d := roundPosRat a.natAbs b.natAbs
    if a * b < 0 then JsFloat.fin (-(d.1 : Int)) d.2 else JsFloat.fin (d.1 : Int) d.2

/-- JS multiplication of such a value by 100: the exact product of the
double by 100 is rounded back to binary64. -/
def jsMul100 : JsFloat → JsFloat
  | JsFloat.fin m e =>
      let d := roundMantissa (100 * m.natAbs) e
      if m < 0 then JsFloat.fin (-(d.1 : Int)) d.2 else JsFloat.fin (d.1 : Int) d.2
  | JsFloat.inf => JsFloat.inf
  | JsFloat.negInf => JsFloat.negInf
  | JsFloat.nan => JsFloat.nan

/-- Two-digit rendering of a number below 100. -/
def pad2 (n : Nat) : String :=
  if n < 10 then "0" ++ toString n else toString n

/-- Render a count of hundredths as a decimal with two fraction digits. -/
def hundredthsRender (m : Nat) : String :=
  toString (m / 100) ++ "." ++ pad2 (m % 100)

/-- JS `toFixed(2)` on the modelled values. ECMA-262 picks the count of
hundredths `h` closest to the exact value `m * 2 ^ e` of the double,
the larger one on ties: `h = ⌊100 * m * 2 ^ e + 1 / 2⌋`, written with
integer floor division when the exponent is negative. Non-finite values
print their names. -/
def toFixed2F : JsFloat → String
  | JsFloat.fin m e =>
      let h : Int :=
        if 0 ≤ e then 100 * m * 2 ^ e.toNat
        else Int.fdiv (200 * m + 2 ^ (-e).toNat) (2 ^ ((-e).toNat + 1))
      if h < 0 then "-" ++ hundredthsRender h.natAbs else hundredthsRender h.toNat
  | JsFloat.inf => "Infinity"
  | JsFloat.negInf => "-Infinity"
  | JsFloat.nan => "NaN"

/-- A count action restricted to the fields the metrics functions read. -/
structure CountAction where
  variance : Int
  flagged : Bool
deriving DecidableEq

/-- Result record of `calculateVarianceStats`. -/
structure VarianceStats where
  totalActions : Nat
  totalVariance : Int
  positiveVariances : List CountAction
  negativeVariances : List CountAction
  zeroVariances : List CountAction
  varianceCount : Nat
  accuracyPercentage : String
deriving DecidableEq

/-- The `countActions.forEach` accumulation of `calculateVarianceStats`:
running variance total and the three buckets, in input order. -/
def varianceFold : List CountAction → Int × List CountAction × List CountAction × List CountAction
  | [] => (0, [], [], [])
  | a :: rest =>
      match varianceFold rest with
      | (t, p, n, z) =>
        if a.variance > 0 then (a.variance + t, a :: p, n, z)
        else if a.variance < 0 then (a.variance + t, p, a :: n, z)
        else (a.variance + t, p, n, a :: z)

/-- `calculateVarianceStats` of `src/data-schema.js`. The accuracy
percentage is `((zeroVariances.length / totalActions) * 100).toFixed(2)`
with JS division semantics. -/
def calculateVarianceStats (countActions : List CountAction) : VarianceStats :=
  match varianceFold countActions with
  | (t, p, n, z) =>
    { totalActions := countActions.length,
      totalVariance := t,
      positiveVariances := p,
      negativeVariances := n,
      zeroVariances := z,
      varianceCount := p.length + n.length,
      accuracyPercentage :=
        toFixed2F (jsMul100 (jsDivF (z.length : Int) (countActions.length : Int))) }

/-- A count session restricted to the fields `calculateSessionMetrics`
reads. `endTime` is `none` for JS `null`/`undefined`. -/
structure Session where
  sessionId : String
  location : String
  bins : List String
  totalPallets : Nat
  startTime : Int
  endTime : Option Int
deriving DecidableEq

/-- Result record of `calculateSessionMetrics`. -/
structure SessionMetrics where
  sessionId : String
  location : String
  binsCount : Nat
  totalPallets : Nat
  countedPallets : Nat
  completionPercentage : String
  durationSeconds : Int
  durationFormatted : String
  varianceCount : Nat
  flaggedCount : Nat
deriving DecidableEq

/-- `formatDuration` of `src/data-schema.js` on an integral number of
seconds: `Math.floor` on a JS division is floor division, and the JS `%`
operator is the truncated remainder. -/
def formatDuration (seconds : Int) : String :=
  let hours := Int.fdiv seconds 3600
  let minutes := Int.fdiv (Int.tmod seconds 3600) 60
  let secs := Int.tmod seconds 60
  if hours > 0 then
    toString hours ++ "h " ++ toString minutes ++ "m " ++ toString secs ++ "s"
  else if minutes > 0 then
    toString minutes ++ "m " ++ toString secs ++ "s"
  else
    toString secs ++ "s"

/-- `calculateSessionMetrics` of `src/data-schema.js`. `Date.now()` is
the explicit argument `now`; the conditional `session.endTime ? ... :`
tests JS truthiness, so an `endTime` of `0` also falls back to `now`. -/
def calculateSessionMetrics (session : Session) (countActions : List CountAction)
    (now : Int) : SessionMetrics :=
  let duration : Int :=
    match session.endTime with
    | some e => if e == 0 then now - session.startTime else e - session.startTime
    | none => now - session.startTime
  let durationSeconds := Int.fdiv duration 1000
  { sessionId := session.sessionId,
    location := session.location,
    binsCount := session.bins.length,
    totalPallets := session.totalPallets,
    countedPallets := countActions.length,
    completionPercentage :=
      toFixed2F (jsMul100 (jsDivF (countActions.length : Int) (session.totalPallets : Int))),
    durationSeconds := durationSeconds,
    durationFormatted := formatDuration durationSeconds,
    varianceCount := (countActions.filter (fun a => !(a.variance == 0))).length,
    flaggedCount := (countActions.filter (fun a => a.flagged)).length }

/-- Specification-side rendering of §4.5: the duration decomposed into
hours, minutes and seconds, leading zero-valued units omitted. -/
def specFormatDuration (s : Nat) : String :=
  let h := s / 3600
  let m := s / 60 % 60
  let sec := s % 60
  if h ≠ 0 then
    toString h ++ "h " ++ toString m ++ "m " ++ toString sec ++ "s"
  else if m ≠ 0 then
    toString m ++ "m " ++ toString sec ++ "s"
  else
    toString sec ++ "s"

/-- A fully valid row except that `SystemQuantity` is the number `0`. -/
def rowSQZero : Row :=
  { Location := JsValue.str "Area-A", Bin := JsValue.str "A-1",
    PalletID := JsValue.str "PAL-001", ItemNumber := JsValue.str "SKU-1001",
    SystemQuantity := JsValue.num 0, ExpiryDate := JsValue.undefined }

/-- A fully valid row except that `SystemQuantity` is the non-integer
string `"3.5"`. -/
def rowSQFrac : Row :=
  { Location := JsValue.str "Area-A", Bin := JsValue.str "A-1",
    PalletID := JsValue.str "PAL-001", ItemNumber := JsValue.str "SKU-1001",
    SystemQuantity := JsValue.str "3.5", ExpiryDate := JsValue.undefined }

/-- A row whose `SystemQuantity` is non-numeric text. -/
def rowSQText : Row :=
  { Location := JsValue.str "Area-A", Bin := JsValue.str "A-1",
    PalletID := JsValue.str "PAL-001", ItemNumber := JsValue.str "SKU-1001",
    SystemQuantity := JsValue.str "not-a-number", ExpiryDate := JsValue.undefined }

/-- A row whose `Bin` column holds the falsy number `0`. -/
def rowBinZero : Row :=
  { Location := JsValue.str "Area-A", Bin := JsValue.num 0,
    PalletID := JsValue.str "PAL-001", ItemNumber := JsValue.str "SKU-1001",
    SystemQuantity := JsValue.num 50, ExpiryDate := JsValue.undefined }

/-- Pallet `PAL-001` in bin `A-1`. -/
def rowP1B1 : Row :=
  { Location := JsValue.str "Area-A", Bin := JsValue.str "A-1",
    PalletID := JsValue.str "PAL-001", ItemNumber := JsValue.str "SKU-1001",
    SystemQuantity := JsValue.num 50, ExpiryDate := JsValue.undefined }

/-- The same pallet `PAL-001` in the other bin `A-2`. -/
def rowP1B2 : Row :=
  { Location := JsValue.str "Area-A", Bin := JsValue.str "A-2",
    PalletID := JsValue.str "PAL-001", ItemNumber := JsValue.str "SKU-1001",
    SystemQuantity := JsValue.num 50, ExpiryDate := JsValue.undefined }

/-- An import with one pallet split over two bins. -/
def rowsSplitPallet : List Row := [rowP1B1, rowP1B2]

/-- A single count action with zero variance. -/
def actsOne : List CountAction := [{ variance := 0, flagged := false }]

/-- The end-to-end example of §8: one exact count and one short count
(variance `40 - 75 = -35`): one zero variance out of two actions. -/
def actsSpecExample : List CountAction :=
  [{ variance := 0, flagged := false }, { variance := -35, flagged := false }]

/-- A session still in progress (`endTime` unset). -/
def sessionOpen : Session :=
  { sessionId := "SES-1", location := "Area-A", bins := ["A-1"],
    totalPallets := 1, startTime := 0, endTime := none }

/-- A finished session (`endTime` set). -/
def sessionClosed : Session :=
  { sessionId := "SES-2", location := "Area-A", bins := ["A-1"],
    totalPallets := 1, startTime := 0, endTime := some 5000 }

/-- A session whose scope contains no pallets. -/
def sessionZeroPallets : Session :=
  { sessionId := "SES-3", location := "Area-A", bins := ["A-1"],
    totalPallets := 0, startTime := 0, endTime := some 1000 }

/-- A session scoped over two pallets. -/
def sessionTwoPallets : Session :=
  { sessionId := "SES-4", location := "Area-A", bins := ["A-1"],
    totalPallets := 2, startTime := 0, endTime := some 1000 }

/-- Floor division of two natural numbers cast to integers agrees with
natural division. -/
theorem fdiv_natCast (m n : Nat) : Int.fdiv (m : Int) (n : Int) = ((m / n : Nat) : Int) := by
  cases m with
  | zero => simp [Int.fdiv]
  | succ k => rfl

/-- Truncated remainder of two natural numbers cast to integers agrees
with the natural remainder. -/
theorem tmod_natCast (m n : Nat) : Int.tmod (m : Int) (n : Int) = ((m % n : Nat) : Int) := rfl

/-- The JS pipeline `(part / whole * 100).toFixed(2)` on two natural
numbers with `whole` nonzero always renders a nonnegative count of
hundredths: the quotient is finite, both roundings keep it nonnegative,
and `toFixed(2)` therefore prints an unsigned two-decimal numeral. -/
theorem div_pipeline_renders (part whole : Nat) (h : whole ≠ 0) :
    ∃ m : Nat, toFixed2F (jsMul100 (jsDivF (part : Int) (whole : Int))) = hundredthsRender m := by
  have hz : (whole : Int) ≠ 0 := Int.natCast_ne_zero.mpr h
  have hsign : ¬((part : Int) * (whole : Int) < 0) :=
    not_lt.mpr (mul_nonneg (Int.natCast_nonneg part) (Int.natCast_nonneg whole))
  simp only [jsDivF, if_neg hz, if_neg hsign, Int.natAbs_ofNat]
  rcases hR : roundPosRat part whole with ⟨M1, e1⟩
  dsimp only
  have hm1 : ¬((M1 : Int) < 0) := not_lt.mpr (Int.natCast_nonneg M1)
  simp only [jsMul100, Int.natAbs_ofNat, if_neg hm1]
  rcases hR2 : roundMantissa (100 * M1) e1 with ⟨M2, e2⟩
  dsimp only
  simp only [toFixed2F]
  by_cases he : 0 ≤ e2
  · have hnn : ¬(100 * (M2 : Int) * 2 ^ e2.toNat < 0) := by
      refine not_lt.mpr ?_
      positivity
    simp only [if_pos he, if_neg hnn]
    exact ⟨(100 * (M2 : Int) * 2 ^ e2.toNat).toNat, rfl⟩
  · have harg : 200 * (M2 : Int) + 2 ^ (-e2).toNat =
        ((200 * M2 + 2 ^ (-e2).toNat : Nat) : Int) := by
      push_cast
      ring
  -- the divisor also rewrites to a cast so that floor division is the
  -- natural-number division
    have harg2 : (2 : Int) ^ ((-e2).toNat + 1) = ((2 ^ ((-e2).toNat + 1) : Nat) : Int) := by
      push_cast
      ring
    have hnn : ¬((((200 * M2 + 2 ^ (-e2).toNat) / 2 ^ ((-e2).toNat + 1) : Nat) : Int) < 0) :=
      not_lt.mpr (Int.natCast_nonneg _)
    simp only [if_neg he, harg, harg2, fdiv_natCast, if_neg hnn]
    exact ⟨((((200 * M2 + 2 ^ (-e2).toNat) / 2 ^ ((-e2).toNat + 1) : Nat) : Int)).toNat, rfl⟩

/-- The dedup walk keeps or rejects every row: the two output lengths
add up to the input length. -/
theorem dedupAux_length (rows : List Row) : ∀ seen : List String,
    (dedupAux seen rows).1.length + (dedupAux seen rows).2.length = rows.length := by
  induction rows with
  | nil => intro seen; rfl
  | cons r rest ih =>
    intro seen
    by_cases h : rowKey r ∈ seen
    · simp only [dedupAux, if_pos h, List.length_cons]
      have := ih seen
      omega
    · simp only [dedupAux, if_neg h, List.length_cons]
      have := ih (rowKey r :: seen)
      omega

/-- The kept rows form a sublist of the input (original order kept). -/
theorem dedupAux_sublist (rows : List Row) : ∀ seen : List String,
    List.Sublist (dedupAux seen rows).1 rows := by
  induction rows with
  | nil => intro seen; exact List.Sublist.refl _
  | cons r rest ih =>
    intro seen
    by_cases h : rowKey r ∈ seen
    · simp only [dedupAux, if_pos h]
      exact List.Sublist.cons r (ih seen)
    · simp only [dedupAux, if_neg h]
      exact List.Sublist.cons₂ r (ih (rowKey r :: seen))

/-- No kept row carries a key that was already in the `seen` map. -/
theorem dedupAux_filter_of_mem (rows : List Row) : ∀ (seen : List String) (k : String),
    k ∈ seen → (dedupAux seen rows).1.filter (fun r => rowKey r == k) = [] := by
  induction rows with
  | nil => intro seen k hk; rfl
  | cons r rest ih =>
    intro seen k hk
    by_cases h : rowKey r ∈ seen
    · simp only [dedupAux, if_pos h]
      exact ih seen k hk
    · simp only [dedupAux, if_neg h]
      have hne : (rowKey r == k) = false :=
        beq_eq_false_iff_ne.mpr (fun he => h (he ▸ hk))
      rw [List.filter_cons]
      simp only [hne, Bool.false_eq_true, if_false]
      exact ih (rowKey r :: seen) k (List.mem_cons_of_mem _ hk)

/-- For a key not yet seen, the kept rows with that key are exactly the
first occurrence of that key in the input. -/
theorem dedupAux_filter_of_not_mem (rows : List Row) : ∀ (seen : List String) (k : String),
    k ∉ seen →
    (dedupAux seen rows).1.filter (fun r => rowKey r == k) =
    (rows.filter (fun r => rowKey r == k)).take 1 := by
  induction rows with
  | nil => intro seen k hk; rfl
  | cons r rest ih =>
    intro seen k hk
    by_cases h : rowKey r ∈ seen
    · have hne : (rowKey r == k) = false :=
        beq_eq_false_iff_ne.mpr (fun he => hk (he ▸ h))
      simp only [dedupAux, if_pos h, List.filter_cons, hne, Bool.false_eq_true, if_false]
      exact ih seen k hk
    · by_cases hk2 : rowKey r = k
      · have htrue : (rowKey r == k) = true := beq_iff_eq.mpr hk2
        have hmem2 : k ∈ rowKey r :: seen := hk2 ▸ List.mem_cons_self _ _
        simp only [dedupAux, if_neg h, List.filter_cons, htrue, if_true]
        rw [dedupAux_filter_of_mem rest (rowKey r :: seen) k hmem2]
        rfl
      · have hne : (rowKey r == k) = false := beq_eq_false_iff_ne.mpr hk2
        have hk3 : k ∉ rowKey r :: seen := by
          intro hmem
          rcases List.mem_cons.mp hmem with he | hs
          · exact hk2 he.symm
          · exact hk hs
        simp only [dedupAux, if_neg h, List.filter_cons, hne, Bool.false_eq_true, if_false]
        exact ih (rowKey r :: seen) k hk3

/-- The keys of the kept rows are pairwise distinct, and none of them
was in the initial `seen` map. -/
theorem dedupAux_keys_nodup (rows : List Row) : ∀ seen : List String,
    ((dedupAux seen rows).1.map rowKey).Nodup ∧
    ∀ r ∈ (dedupAux seen rows).1, rowKey r ∉ seen := by
  induction rows with
  | nil =>
    intro seen
    exact ⟨List.nodup_nil, by intro r hr; cases hr⟩
  | cons r rest ih =>
    intro seen
    by_cases h : rowKey r ∈ seen
    · simp only [dedupAux, if_pos h]
      exact ih seen
    · simp only [dedupAux, if_neg h]
      obtain ⟨hnd, hni⟩ := ih (rowKey r :: seen)
      refine ⟨?_, ?_⟩
      · simp only [List.map_cons, List.nodup_cons]
        refine ⟨?_, hnd⟩
        intro hmem
        rcases List.mem_map.mp hmem with ⟨x, hx, he⟩
        exact hni x hx (he ▸ List.mem_cons_self _ _)
      · intro x hx
        rcases List.mem_cons.mp hx with he | hx2
        · rw [he]
          exact h
        · intro hs
          exact hni x hx2 (List.mem_cons_of_mem _ hs)

/-- A row whose key occurs exactly once in the input is kept. -/
theorem mem_unique_of_key_count_one (rows : List Row) (a : Row) (ha : a ∈ rows)
    (h1 : rows.countP (fun r => rowKey r == rowKey a) = 1) :
    a ∈ (deduplicateRows rows).unique := by
  have hfilter : (deduplicateRows rows).unique.filter (fun r => rowKey r == rowKey a) =
      (rows.filter (fun r => rowKey r == rowKey a)).take 1 :=
    dedupAux_filter_of_not_mem rows [] (rowKey a) (by simp)
  have hlen : (rows.filter (fun r => rowKey r == rowKey a)).length = 1 := by
    rw [← List.countP_eq_length_filter]
    exact h1
  obtain ⟨x, hx⟩ := List.length_eq_one.mp hlen
  have hax : a ∈ rows.filter (fun r => rowKey r == rowKey a) :=
    List.mem_filter.mpr ⟨ha, by simp⟩
  rw [hx] at hax
  have hxa : x = a := (List.mem_singleton.mp hax).symm
  rw [hx, hxa] at hfilter
  have hmem : a ∈ (deduplicateRows rows).unique.filter (fun r => rowKey r == rowKey a) := by
    rw [hfilter]
    exact List.mem_singleton_self a
  exact List.mem_of_mem_filter hmem

/-- A missing-column error never coincides with a `SystemQuantity` type
error: the texts differ in their first character. -/
theorem missing_ne_sq (c v : String) :
    ("Missing required column: " ++ c) ≠ ("SystemQuantity must be a number, got: " ++ v) := by
  intro h
  have hd := congrArg String.data h
  rw [String.data_append, String.data_append] at hd
  have h1 : ("Missing required column: ").data = 'M' :: ("issing required column: ").data := by
    decide
  have h2 : ("SystemQuantity must be a number, got: ").data =
      'S' :: ("ystemQuantity must be a number, got: ").data := by
    decide
  rw [h1, h2] at hd
  simp only [List.cons_append, List.cons.injEq] at hd
  exact absurd hd.1 (by decide)

/-- A `SystemQuantity` type error never coincides with an `ExpiryDate`
format error: the texts differ in their first character. -/
theorem sq_ne_exp (v w : String) :
    ("SystemQuantity must be a number, got: " ++ v) ≠
    ("ExpiryDate must be YYYY-MM-DD format, got: " ++ w) := by
  intro h
  have hd := congrArg String.data h
  rw [String.data_append, String.data_append] at hd
  have h1 : ("SystemQuantity must be a number, got: ").data =
      'S' :: ("ystemQuantity must be a number, got: ").data := by
    decide
  have h2 : ("ExpiryDate must be YYYY-MM-DD format, got: ").data =
      'E' :: ("xpiryDate must be YYYY-MM-DD format, got: ").data := by
    decide
  rw [h1, h2] at hd
  simp only [List.cons_append, List.cons.injEq] at hd
  exact absurd hd.1 (by decide)

/-- Bucket sizes and running total of the `forEach` accumulation. -/
theorem varianceFold_spec (actions : List CountAction) :
    (varianceFold actions).2.1.length + (varianceFold actions).2.2.1.length +
      (varianceFold actions).2.2.2.length = actions.length ∧
    (varianceFold actions).1 = (actions.map (fun a => a.variance)).sum := by
  induction actions with
  | nil => exact ⟨rfl, rfl⟩
  | cons a rest ih =>
    rcases hvf : varianceFold rest with ⟨t, p, n, z⟩
    obtain ⟨ih1, ih2⟩ := ih
    rw [hvf] at ih1 ih2
    dsimp only at ih1 ih2
    by_cases h1 : a.variance > 0
    · simp only [varianceFold, hvf, if_pos h1, List.length_cons, List.map_cons, List.sum_cons]
      exact ⟨by omega, by rw [ih2]⟩
    · by_cases h2 : a.variance < 0
      · simp only [varianceFold, hvf, if_neg h1, if_pos h2, List.length_cons, List.map_cons,
          List.sum_cons]
        exact ⟨by omega, by rw [ih2]⟩
      · simp only [varianceFold, hvf, if_neg h1, if_neg h2, List.length_cons, List.map_cons,
          List.sum_cons]
        exact ⟨by omega, by rw [ih2]⟩

/-- C1: the claim says a row whose five required columns hold valid
values, with `SystemQuantity` a parseable integer including `0`, passes
validation. The code disagrees with its own schema: the declarative
`systemQuantity` field validator of `InventoryImportSchema` accepts `0`,
yet `validateInventoryRow` tests required columns with JS truthiness, so
a `SystemQuantity` of `0` is reported as a missing column and the row is
rejected. -/
theorem validate_rejects_zero_system_quantity :
    systemQuantityFieldValidation 0 = true ∧
    validateInventoryRow rowSQZero =
      { isValid := false, errors := ["Missing required column: SystemQuantity"] } := by
  decide

/-- C10: a required column whose value is the number `0` or the empty
string is reported as a missing column, exactly like an absent column. -/
theorem validate_falsy_required_as_missing (row : Row) (c : String)
    (hc : c ∈ requiredColumns)
    (hv : getCol row c = JsValue.num 0 ∨ getCol row c = JsValue.str "") :
    ("Missing required column: " ++ c) ∈ (validateInventoryRow row).errors := by
  have hfalse : truthy (getCol row c) = false := by
    rcases hv with h | h <;> rw [h] <;> rfl
  have hmem : c ∈ requiredColumns.filter (fun c => !(truthy (getCol row c))) :=
    List.mem_filter.mpr ⟨hc, by rw [hfalse]; rfl⟩
  have hmap : ("Missing required column: " ++ c) ∈ missingErrors row :=
    List.mem_map_of_mem _ hmem
  show _ ∈ missingErrors row ++ sqErrors row ++ expErrors row
  exact List.mem_append_left _ (List.mem_append_left _ hmap)

/-- Witness for C10 at the concrete row whose `Bin` is the number `0`. -/
theorem validate_falsy_required_as_missing_witness :
    "Bin" ∈ requiredColumns ∧
    ("Missing required column: " ++ "Bin") ∈ (validateInventoryRow rowBinZero).errors :=
  ⟨by decide,
   validate_falsy_required_as_missing rowBinZero "Bin" (by decide) (Or.inl (by decide))⟩

/-- C5 (amended): the `SystemQuantity` type error is reported exactly
when the value is truthy and JS `parseInt` fails on it. A non-integer
value with an integer prefix (such as `"3.5"`) parses, so it raises no
error, and a falsy value skips the check. -/
theorem systemQuantity_error_iff_truthy_unparseable (row : Row) :
    (("SystemQuantity must be a number, got: " ++ jsToString row.SystemQuantity) ∈
      (validateInventoryRow row).errors) ↔
    (truthy row.SystemQuantity = true ∧ parseIntJs row.SystemQuantity = none) := by
  constructor
  · intro h
    have h2 : ("SystemQuantity must be a number, got: " ++ jsToString row.SystemQuantity) ∈
        missingErrors row ++ sqErrors row ++ expErrors row := h
    rcases List.mem_append.mp h2 with h3 | h3
    · rcases List.mem_append.mp h3 with h4 | h4
      · exfalso
        rcases List.mem_map.mp h4 with ⟨c, hcmem, hceq⟩
        exact missing_ne_sq c (jsToString row.SystemQuantity) hceq
      · by_cases hcond : (truthy row.SystemQuantity &&
            (parseIntJs row.SystemQuantity).isNone) = true
        · rcases Bool.and_eq_true_iff.mp hcond with ⟨hl, hr⟩
          exact ⟨hl, Option.isNone_iff_eq_none.mp hr⟩
        · exfalso
          unfold sqErrors at h4
          rw [if_neg hcond] at h4
          cases h4
    · exfalso
      unfold expErrors at h3
      by_cases hcond : (truthy row.ExpiryDate &&
          !(matchesDatePattern (jsToString row.ExpiryDate))) = true
      · rw [if_pos hcond] at h3
        exact sq_ne_exp (jsToString row.SystemQuantity) (jsToString row.ExpiryDate)
          (List.mem_singleton.mp h3)
      · rw [if_neg hcond] at h3
        cases h3
  · rintro ⟨h1, h2⟩
    have hs : sqErrors row =
        ["SystemQuantity must be a number, got: " ++ jsToString row.SystemQuantity] := by
      unfold sqErrors
      rw [h1, h2]
      rfl
    show _ ∈ missingErrors row ++ sqErrors row ++ expErrors row
    refine List.mem_append_left _ (List.mem_append_right _ ?_)
    rw [hs]
    exact List.mem_singleton_self _

/-- Witness for C5 at a row with non-numeric text in `SystemQuantity`. -/
theorem systemQuantity_error_iff_truthy_unparseable_witness :
    ("SystemQuantity must be a number, got: " ++ jsToString rowSQText.SystemQuantity) ∈
      (validateInventoryRow rowSQText).errors :=
  (systemQuantity_error_iff_truthy_unparseable rowSQText).mpr ⟨by decide, by decide⟩

/-- C5 (counterexample to the claim as stated): `"3.5"` is not an
integer, yet the row validates with no error at all, because
`parseInt("3.5")` succeeds with `3`. -/
theorem validate_fractional_quantity_unreported :
    validateInventoryRow rowSQFrac = { isValid := true, errors := [] } ∧
    parseIntJs (JsValue.str "3.5") = some 3 := by
  decide

/-- C3: two rows with the same pallet identifier but different bins are
never deduplicated against each other — when no other row shares either
row's (PalletID, Bin) identity (each key occurs exactly once), both rows
are kept. -/
theorem dedup_same_pallet_different_bins_kept (rows : List Row) (a b : Row)
    (ha : a ∈ rows) (hb : b ∈ rows)
    (_hp : jsToString a.PalletID = jsToString b.PalletID)
    (_hbin : jsToString a.Bin ≠ jsToString b.Bin)
    (hca : rows.countP (fun r => rowKey r == rowKey a) = 1)
    (hcb : rows.countP (fun r => rowKey r == rowKey b) = 1) :
    a ∈ (deduplicateRows rows).unique ∧ b ∈ (deduplicateRows rows).unique :=
  ⟨mem_unique_of_key_count_one rows a ha hca,
   mem_unique_of_key_count_one rows b hb hcb⟩

/-- Witness for C3: pallet `PAL-001` appearing in bins `A-1` and `A-2`
survives deduplication in both rows. -/
theorem dedup_same_pallet_different_bins_kept_witness :
    rowP1B1 ∈ rowsSplitPallet ∧ rowP1B2 ∈ rowsSplitPallet ∧
    rowP1B1 ∈ (deduplicateRows rowsSplitPallet).unique ∧
    rowP1B2 ∈ (deduplicateRows rowsSplitPallet).unique :=
  ⟨by decide, by decide,
   (dedup_same_pallet_different_bins_kept rowsSplitPallet rowP1B1 rowP1B2
      (by decide) (by decide) (by decide) (by decide) (by decide) (by decide)).1,
   (dedup_same_pallet_different_bins_kept rowsSplitPallet rowP1B1 rowP1B2
      (by decide) (by decide) (by decide) (by decide) (by decide) (by decide)).2⟩

/-- C4: deduplication partitions the input (the kept and rejected rows
account for every input row), keeps rows in their original relative
order, keeps exactly the first occurrence of every (PalletID, Bin) key,
and no two kept rows share a (PalletID, Bin) pair. -/
theorem deduplicateRows_partition_first_wins (rows : List Row) :
    (deduplicateRows rows).unique.length + (deduplicateRows rows).duplicates.length =
      rows.length ∧
    List.Sublist (deduplicateRows rows).unique rows ∧
    (∀ k : String, (deduplicateRows rows).unique.filter (fun r => rowKey r == k) =
      (rows.filter (fun r => rowKey r == k)).take 1) ∧
    List.Pairwise (fun a b => ¬(a.PalletID = b.PalletID ∧ a.Bin = b.Bin))
      (deduplicateRows rows).unique := by
  refine ⟨dedupAux_length rows [], dedupAux_sublist rows [], ?_, ?_⟩
  · intro k
    exact dedupAux_filter_of_not_mem rows [] k (by simp)
  · have hnd := (dedupAux_keys_nodup rows []).1
    have hpw : (deduplicateRows rows).unique.Pairwise (fun a b => rowKey a ≠ rowKey b) :=
      List.pairwise_map.mp hnd
    refine hpw.imp ?_
    intro a b hne hpair
    exact hne (by rw [rowKey, rowKey, hpair.1, hpair.2])

/-- C7: over any list of count actions, the three variance buckets
partition the actions, the total variance is the signed sum of all
variances, and `varianceCount` counts the nonzero buckets. -/
theorem varianceStats_partition_and_sum (actions : List CountAction) :
    (calculateVarianceStats actions).positiveVariances.length +
      (calculateVarianceStats actions).negativeVariances.length +
      (calculateVarianceStats actions).zeroVariances.length =
      (calculateVarianceStats actions).totalActions ∧
    (calculateVarianceStats actions).totalVariance =
      (actions.map (fun a => a.variance)).sum ∧
    (calculateVarianceStats actions).varianceCount =
      (calculateVarianceStats actions).positiveVariances.length +
      (calculateVarianceStats actions).negativeVariances.length := by
  rcases hvf : varianceFold actions with ⟨t, p, n, z⟩
  obtain ⟨h1, h2⟩ := varianceFold_spec actions
  rw [hvf] at h1 h2
  dsimp only at h1 h2
  simp only [calculateVarianceStats, hvf]
  exact ⟨h1, h2, trivial⟩

/-- C2 (counterexample to the claim as stated): on an empty action list
the code performs the division `0 / 0` anyway; `accuracyPercentage` is
precisely the rendering of that division by zero, namely `"NaN"`. -/
theorem varianceStats_empty_performs_division :
    (calculateVarianceStats []).accuracyPercentage = "NaN" ∧
    jsDivF 0 0 = JsFloat.nan ∧
    (calculateVarianceStats []).accuracyPercentage = toFixed2F (jsMul100 (jsDivF 0 0)) := by
  decide

/-- C2 (amended): `calculateVarianceStats` does not guard
`totalActions = 0`; the division is always performed. On the empty list
the `0 / 0` yields `NaN` and `accuracyPercentage` is the deterministic
string `"NaN"` (shown in the counterexample); on every nonempty list
the division is finite and `accuracyPercentage` is the `toFixed(2)`
rendering of the binary64 computation — always an unsigned two-decimal
numeral, never `"NaN"` or an infinity; on the specification's own
end-to-end example (one zero variance out of two actions) it is
`"50.00"`. -/
theorem varianceStats_accuracy_division_spec :
    (∀ actions : List CountAction, actions ≠ [] →
      ∃ m : Nat, (calculateVarianceStats actions).accuracyPercentage = hundredthsRender m) ∧
    (calculateVarianceStats actsSpecExample).accuracyPercentage = "50.00" := by
  constructor
  · intro actions h
    rcases hvf : varianceFold actions with ⟨t, p, n, z⟩
    simp only [calculateVarianceStats, hvf]
    exact div_pipeline_renders z.length actions.length
      (fun h0 => h (List.length_eq_zero.mp h0))
  · decide

/-- Witness for C2's amended claim on a one-element action list. -/
theorem varianceStats_accuracy_division_spec_witness :
    actsOne ≠ [] ∧
    ∃ m : Nat, (calculateVarianceStats actsOne).accuracyPercentage = hundredthsRender m :=
  ⟨by decide, varianceStats_accuracy_division_spec.1 actsOne (by decide)⟩

/-- C8 (counterexample to the claim as stated): with `totalPallets = 0`
and one recorded action, the division by zero is not guarded — the
completion percentage is the string `"Infinity"`. -/
theorem completionPercentage_unguarded_infinity :
    (calculateSessionMetrics sessionZeroPallets actsOne 0).completionPercentage =
      "Infinity" := by
  decide

/-- C8 (amended): `completionPercentage` is the `toFixed(2)` rendering
of the binary64 product `actions.length / totalPallets * 100`. Whenever
`totalPallets` is nonzero it is an unsigned two-decimal numeral (for one
action against two pallets it is `"50.00"`, shown in the witness); the
`totalPallets = 0` case is NOT guarded: the division proceeds and
yields `"NaN"` with no actions and `"Infinity"` otherwise. -/
theorem sessionMetrics_completion_spec (s : Session) (acts : List CountAction) (now : Int) :
    (s.totalPallets ≠ 0 →
      ∃ m : Nat, (calculateSessionMetrics s acts now).completionPercentage =
        hundredthsRender m) ∧
    (s.totalPallets = 0 → acts = [] →
      (calculateSessionMetrics s acts now).completionPercentage = "NaN") ∧
    (s.totalPallets = 0 → acts ≠ [] →
      (calculateSessionMetrics s acts now).completionPercentage = "Infinity") := by
  refine ⟨?_, ?_, ?_⟩
  · intro h
    show ∃ m : Nat,
      toFixed2F (jsMul100 (jsDivF (acts.length : Int) (s.totalPallets : Int))) =
        hundredthsRender m
    exact div_pipeline_renders acts.length s.totalPallets h
  · intro h he
    subst he
    show toFixed2F (jsMul100 (jsDivF ((List.length ([] : List CountAction) : Nat) : Int)
      (s.totalPallets : Int))) = "NaN"
    rw [h]
    rfl
  · intro h hne
    have hl : 0 < acts.length := List.length_pos.mpr hne
    have ha : ((acts.length : Nat) : Int) ≠ 0 :=
      Int.natCast_ne_zero.mpr (Nat.pos_iff_ne_zero.mp hl)
    have hpos : (0 : Int) < ((acts.length : Nat) : Int) := by
      exact_mod_cast hl
    show toFixed2F (jsMul100 (jsDivF ((acts.length : Nat) : Int) (s.totalPallets : Int))) =
      "Infinity"
    rw [h]
    simp [jsDivF, ha, hpos, jsMul100, toFixed2F]

/-- Witness for C8's amended claim: one action against two pallets,
with the concrete two-decimal rendering. -/
theorem sessionMetrics_completion_spec_witness :
    sessionTwoPallets.totalPallets ≠ 0 ∧
    (∃ m : Nat, (calculateSessionMetrics sessionTwoPallets actsOne 0).completionPercentage =
      hundredthsRender m) ∧
    (calculateSessionMetrics sessionTwoPallets actsOne 0).completionPercentage = "50.00" :=
  ⟨by decide, (sessionMetrics_completion_spec sessionTwoPallets actsOne 0).1 (by decide),
   by decide⟩

/-- C6 (counterexample to the claim as stated): `calculateSessionMetrics`
reads the clock when `session.endTime` is unset, so two runs on the same
session and action list disagree at different times — the function is
not a pure function of (session, actions). -/
theorem sessionMetrics_clock_dependent :
    calculateSessionMetrics sessionOpen [] 1000 ≠
    calculateSessionMetrics sessionOpen [] 2000 := by
  decide

/-- C6 (amended): once `endTime` is set (and nonzero, as JS truthiness
requires), `calculateSessionMetrics` no longer depends on the clock:
its result is the same at any two evaluation times. The validation,
deduplication and variance-statistics operations are clock-free
functions of their inputs in this model. -/
theorem sessionMetrics_deterministic_with_endTime (s : Session) (acts : List CountAction)
    (t1 t2 : Int) (e : Int) (he : s.endTime = some e) (he0 : e ≠ 0) :
    calculateSessionMetrics s acts t1 = calculateSessionMetrics s acts t2 := by
  have hbe : (e == 0) = false := beq_eq_false_iff_ne.mpr he0
  simp [calculateSessionMetrics, he, hbe]

/-- Witness for C6's amended claim on a closed session. -/
theorem sessionMetrics_deterministic_with_endTime_witness :
    sessionClosed.endTime = some 5000 ∧
    calculateSessionMetrics sessionClosed [] 1000 =
      calculateSessionMetrics sessionClosed [] 2000 :=
  ⟨by decide,
   sessionMetrics_deterministic_with_endTime sessionClosed [] 1000 2000 5000
     (by decide) (by decide)⟩

/-- On a natural number of seconds the JS arithmetic of `formatDuration`
collapses to the specification-side decomposition. -/
theorem formatDuration_natCast (n : Nat) :
    formatDuration (n : Int) = specFormatDuration n := by
  have hts : ∀ k : Nat, toString ((k : Nat) : Int) = toString k := fun k => rfl
  have hm : n % 3600 / 60 = n / 60 % 60 := by
    have h60 : (3600 : Nat) = 60 * 60 := rfl
    rw [h60]
    exact Nat.mod_mul_right_div_self n 60 60
  have h1 : Int.fdiv (n : Int) 3600 = ((n / 3600 : Nat) : Int) := fdiv_natCast n 3600
  have h2 : Int.tmod (n : Int) 3600 = ((n % 3600 : Nat) : Int) := tmod_natCast n 3600
  have h3 : Int.fdiv ((n % 3600 : Nat) : Int) 60 = ((n % 3600 / 60 : Nat) : Int) :=
    fdiv_natCast (n % 3600) 60
  have h4 : Int.tmod (n : Int) 60 = ((n % 60 : Nat) : Int) := tmod_natCast n 60
  simp only [formatDuration, specFormatDuration, h1, h2, h3, h4, hm, hts, gt_iff_lt]
  have hpos : ∀ k : Nat, ((0 : Int) < ((k : Nat) : Int)) = (k ≠ 0) := by
    intro k
    simp [Nat.pos_iff_ne_zero]
  simp only [hpos]

/-- C9: `formatDuration` renders a nonnegative number of seconds as
hours, minutes and seconds with leading zero-valued units omitted, and
matches the three examples of the specification. -/
theorem formatDuration_spec_and_examples :
    (∀ s : Int, 0 ≤ s → formatDuration s = specFormatDuration s.toNat) ∧
    formatDuration 45 = "45s" ∧
    formatDuration 125 = "2m 5s" ∧
    formatDuration 3665 = "1h 1m 5s" := by
  refine ⟨?_, by decide, by decide, by decide⟩
  intro s hs
  obtain ⟨n, rfl⟩ := Int.eq_ofNat_of_zero_le hs
  exact formatDuration_natCast n

/-- Witness for C9's general statement at 7325 seconds. -/
theorem formatDuration_spec_and_examples_witness :
    (0 : Int) ≤ 7325 ∧ formatDuration 7325 = specFormatDuration (Int.toNat 7325) :=
  ⟨by decide, formatDuration_spec_and_examples.1 7325 (by decide)⟩
